import Mathlib

/-
Verification of the codec engine and session-id helper of an SDP library
(util.go). The Go code is shallowly embedded: Go strings are Lean Strings
(on valid UTF-8, Go byte-wise string order coincides with code-point order,
so Char-sequence comparison is faithful), Go uint8/uint32/uint64 are Nat
with explicit bounds where they matter, and the Go map[uint8]Codec is an
insertion-ordered association list (Go map iteration order is unspecified;
the association list determinizes it).
-/

namespace Sdp

/-! ## Models of the Go standard-library string operations used by util.go -/

/-- Core of strings.Split for a one-character separator, on rune lists. -/
def splitOnChar (sep : Char) : List Char → List (List Char)
  | [] => [[]]
  | c :: rest =>
    if c = sep then [] :: splitOnChar sep rest
    else
      match splitOnChar sep rest with
      | [] => [[c]]
      | h :: t => (c :: h) :: t

/-- Models strings.Split(s, sep) for the one-character separators used in util.go. -/
def goSplit (s : String) (sep : Char) : List String :=
  (splitOnChar sep s.data).map String.mk

/-- Core of strings.SplitN with count 2, on rune lists. -/
def splitN2Char (sep : Char) : List Char → List (List Char)
  | [] => [[]]
  | c :: rest =>
    if c = sep then [[], rest]
    else
      match splitN2Char sep rest with
      | [] => [[c]]
      | h :: t => (c :: h) :: t

/-- Models strings.SplitN(s, sep, 2) for a one-character separator. -/
def goSplitN2 (s : String) (sep : Char) : List String :=
  (splitN2Char sep s.data).map String.mk

/-- Rune-list core of strings.HasPrefix. -/
def beginsList : List Char → List Char → Bool
  | [], _ => true
  | _ :: _, [] => false
  | p :: ps, s :: ss => p = s && beginsList ps ss

/-- Models strings.HasPrefix(s, pat). -/
def goStartsWith (s pat : String) : Bool :=
  beginsList pat.data s.data

/-- Models unicode.IsSpace (the rune set Go's strings.TrimSpace strips). -/
def goIsSpace (c : Char) : Bool :=
  c.toNat = 9 || c.toNat = 10 || c.toNat = 11 || c.toNat = 12 || c.toNat = 13 ||
  c.toNat = 32 || c.toNat = 0x85 || c.toNat = 0xA0 || c.toNat = 0x1680 ||
  (0x2000 ≤ c.toNat && c.toNat ≤ 0x200A) || c.toNat = 0x2028 || c.toNat = 0x2029 ||
  c.toNat = 0x202F || c.toNat = 0x205F || c.toNat = 0x3000

/-- Models strings.TrimSpace. -/
def goTrimSpace (s : String) : String :=
  String.mk (((s.data.dropWhile goIsSpace).reverse.dropWhile goIsSpace).reverse)

/-- ASCII lower-casing of a single rune. -/
def asciiLower (c : Char) : Char :=
  if 65 ≤ c.toNat && c.toNat ≤ 90 then Char.ofNat (c.toNat + 32) else c

/-- Models strings.EqualFold restricted to ASCII case folding (Go additionally
folds non-ASCII letters by Unicode simple folding; the codec names compared
here are ASCII). -/
def goEqualFold (a b : String) : Bool :=
  a.data.map asciiLower = b.data.map asciiLower

/-- Byte-lexicographic order on rune lists (on valid UTF-8 this coincides with
Go's byte-wise string order, since UTF-8 is order-preserving). -/
def charListLe : List Char → List Char → Bool
  | [], _ => true
  | _ :: _, [] => false
  | a :: as, b :: bs => if a < b then true else if b < a then false else charListLe as bs

/-- Go string order, as sorted by sort.Strings. -/
def strLe (a b : String) : Bool :=
  charListLe a.data b.data

/-- Insertion step of the sort modelling sort.Strings. -/
def insertStr (x : String) : List String → List String
  | [] => [x]
  | y :: ys => if strLe x y then x :: y :: ys else y :: insertStr x ys

/-- Models sort.Strings: ascending byte-lexicographic sort. Equal elements are
identical strings, so any correct sort produces the same list Go's does. -/
def sortStrings : List String → List String
  | [] => []
  | x :: xs => insertStr x (sortStrings xs)

/-- Numeric value of a decimal digit string. -/
def decDigits (l : List Char) : Nat :=
  l.foldl (fun n c => n * 10 + (c.toNat - 48)) 0

/-- Models strconv.ParseUint(s, 10, bitSize): nonempty, decimal digits only,
value below 2 ^ bitSize; any error becomes none. -/
def goParseUint (bitSize : Nat) (s : String) : Option Nat :=
  if !s.data.isEmpty && s.data.all (fun c => 48 ≤ c.toNat && c.toNat ≤ 57) then
    if decDigits s.data < 2 ^ bitSize then some (decDigits s.data) else none
  else none

/-! ## The data model (util.go types; SessionDescription abridged) -/

/-- Codec, as declared in util.go (PayloadType is a uint8, ClockRate a uint32;
both are represented as Nat). -/
structure Codec where
  payloadType : Nat
  name : String
  clockRate : Nat
  encodingParameters : String
  fmtp : String
  rtcpFeedback : List String
deriving DecidableEq

/-- The Go zero value of Codec. -/
def zeroCodec : Codec :=
  { payloadType := 0, name := "", clockRate := 0, encodingParameters := "",
    fmtp := "", rtcpFeedback := [] }

/-- Modelled from the spec: an Attribute holds a key and an optional value
(the struct itself is declared outside the given sources). -/
structure Attribute where
  key : String
  value : String
deriving DecidableEq

/-- Modelled from the spec: an Attribute is serialized as key or key:value
(the Attribute String method is declared outside the given sources). -/
def attrString (a : Attribute) : String :=
  if a.value = "" then a.key else a.key ++ ":" ++ a.value

/-- Modelled from the spec: only the MediaDescription fields the codec engine
reads (its ordered attributes), plus the media name. -/
structure MediaDescription where
  mediaName : String
  attributes : List Attribute
deriving DecidableEq

/-- Modelled from the spec: only the SessionDescription fields relevant to the
codec engine (its ordered media descriptions), plus the session name and the
session-level attributes, which the engine never touches. -/
structure SessionDescription where
  sessionName : String
  attributes : List Attribute
  mediaDescriptions : List MediaDescription
deriving DecidableEq

/-! ## util.go: parsing and merging -/

/-- Codec.appendRTCPFeedback: append unless an identical string is present. -/
def appendRTCPFeedback (c : Codec) (rtcpFeedback : String) : Codec :=
  if rtcpFeedback ∈ c.rtcpFeedback then c
  else { c with rtcpFeedback := c.rtcpFeedback ++ [rtcpFeedback] }

/-- parseRtpmap from util.go. -/
def parseRtpmap (rtpmap : String) : Option Codec :=
  let split := goSplit rtpmap ' '
  if split.length ≠ 2 then none
  else
    let ptSplit := goSplit (split.getD 0 "") ':'
    if ptSplit.length ≠ 2 then none
    else
      match goParseUint 8 (ptSplit.getD 1 "") with
      | none => none
      | some ptInt =>
        let nameSplit := goSplit (split.getD 1 "") '/'
        let parts := nameSplit.length
        if parts > 1 then
          match goParseUint 32 (nameSplit.getD 1 "") with
          | none => none
          | some rate =>
            some { payloadType := ptInt, name := nameSplit.getD 0 "",
                   clockRate := rate,
                   encodingParameters := if parts > 2 then nameSplit.getD 2 "" else "",
                   fmtp := "", rtcpFeedback := [] }
        else
          some { payloadType := ptInt, name := nameSplit.getD 0 "", clockRate := 0,
                 encodingParameters := "", fmtp := "", rtcpFeedback := [] }

/-- parseFmtp from util.go. -/
def parseFmtp (fmtp : String) : Option Codec :=
  let split := goSplitN2 fmtp ' '
  if split.length ≠ 2 then none
  else
    let formatParams := split.getD 1 ""
    let ptSplit := goSplit (split.getD 0 "") ':'
    if ptSplit.length ≠ 2 then none
    else
      match goParseUint 8 (ptSplit.getD 1 "") with
      | none => none
      | some ptInt =>
        some { zeroCodec with payloadType := ptInt, fmtp := formatParams }

/-- parseRtcpFb from util.go; the Bool is the isWildcard result. -/
def parseRtcpFb (rtcpFb : String) : Option (Codec × Bool) :=
  let split := goSplitN2 rtcpFb ' '
  if split.length ≠ 2 then none
  else
    let ptSplit := goSplit (split.getD 0 "") ':'
    if ptSplit.length ≠ 2 then none
    else
      if ptSplit.getD 1 "" = "*" then
        some ({ zeroCodec with rtcpFeedback := [split.getD 1 ""] }, true)
      else
        match goParseUint 8 (ptSplit.getD 1 "") with
        | none => none
        | some ptInt =>
          some ({ zeroCodec with payloadType := ptInt, rtcpFeedback := [split.getD 1 ""] }, false)

/-- The codec engine's map[uint8]Codec, as an insertion-ordered association
list with unique keys. -/
abbrev CodecMap := List (Nat × Codec)

/-- Go map read (codecs[k]); missing keys are none and the caller substitutes
the zero Codec as Go does. -/
def mapGet : CodecMap → Nat → Option Codec
  | [], _ => none
  | p :: rest, k => if p.1 = k then some p.2 else mapGet rest k

/-- Go map write (codecs[k] = v): replace the existing entry in place, else
append a new one. -/
def mapSet : CodecMap → Nat → Codec → CodecMap
  | [], k, v => [(k, v)]
  | p :: rest, k, v => if p.1 = k then (k, v) :: rest else p :: mapSet rest k v

/-- mergeCodecs from util.go: first-non-empty-wins on the scalar fields and a
plain append of the RTCP feedback lists. -/
def mergeCodecs (codec : Codec) (codecs : CodecMap) : CodecMap :=
  let saved0 := (mapGet codecs codec.payloadType).getD zeroCodec
  let saved1 := if saved0.payloadType = 0 then { saved0 with payloadType := codec.payloadType } else saved0
  let saved2 := if saved1.name = "" then { saved1 with name := codec.name } else saved1
  let saved3 := if saved2.clockRate = 0 then { saved2 with clockRate := codec.clockRate } else saved2
  let saved4 := if saved3.encodingParameters = "" then { saved3 with encodingParameters := codec.encodingParameters } else saved3
  let saved5 := if saved4.fmtp = "" then { saved4 with fmtp := codec.fmtp } else saved4
  let saved6 := { saved5 with rtcpFeedback := saved5.rtcpFeedback ++ codec.rtcpFeedback }
  mapSet codecs saved6.payloadType saved6

/-- One step of buildCodecMap's attribute scan: the state is the codec map and
the collected wildcard feedback strings. -/
def scanAttr (st : CodecMap × List String) (attr : String) : CodecMap × List String :=
  if goStartsWith attr "rtpmap:" then
    match parseRtpmap attr with
    | some codec => (mergeCodecs codec st.1, st.2)
    | none => st
  else if goStartsWith attr "fmtp:" then
    match parseFmtp attr with
    | some codec => (mergeCodecs codec st.1, st.2)
    | none => st
  else if goStartsWith attr "rtcp-fb:" then
    match parseRtcpFb attr with
    | some (codec, true) => (st.1, st.2 ++ codec.rtcpFeedback)
    | some (codec, false) => (mergeCodecs codec st.1, st.2)
    | none => st
  else st

/-- The static seed entries of buildCodecMap (payload types 0 and 8). -/
def seedCodecs : CodecMap :=
  [(0, { zeroCodec with payloadType := 0, name := "PCMU", clockRate := 8000 }),
   (8, { zeroCodec with payloadType := 8, name := "PCMA", clockRate := 8000 })]

/-- Every attribute string of every media description, in encounter order. -/
def attrStrings (s : SessionDescription) : List String :=
  (s.mediaDescriptions.map (fun m => m.attributes.map attrString)).flatten

/-- The scan phase of buildCodecMap: fold scanAttr over all attributes. -/
def scanState (s : SessionDescription) : CodecMap × List String :=
  (attrStrings s).foldl scanAttr (seedCodecs, [])

/-- The final loop of buildCodecMap: append every wildcard feedback string to
every codec, through appendRTCPFeedback. -/
def applyWildcards (codecs : CodecMap) (wildcard : List String) : CodecMap :=
  codecs.map (fun p => (p.1, wildcard.foldl appendRTCPFeedback p.2))

/-- buildCodecMap from util.go. -/
def buildCodecMap (s : SessionDescription) : CodecMap :=
  applyWildcards (scanState s).1 (scanState s).2

/-- equivalentFmtp from util.go: split on the semicolon, length check, sort,
then compare the parts pairwise after trimming. Note that the sort happens on
the untrimmed parts. -/
def equivalentFmtp (want got : String) : Bool :=
  let wantSplit := goSplit want ';'
  let gotSplit := goSplit got ';'
  if wantSplit.length ≠ gotSplit.length then false
  else
    ((sortStrings wantSplit).zip (sortStrings gotSplit)).all
      (fun p => goTrimSpace p.1 = goTrimSpace p.2)

/-- codecsMatch from util.go. -/
def codecsMatch (wanted got : Codec) : Bool :=
  if wanted.name ≠ "" && !goEqualFold wanted.name got.name then false
  else if wanted.clockRate ≠ 0 && wanted.clockRate ≠ got.clockRate then false
  else if wanted.encodingParameters ≠ "" && wanted.encodingParameters ≠ got.encodingParameters then false
  else if wanted.fmtp ≠ "" && !equivalentFmtp wanted.fmtp got.fmtp then false
  else true

/-- The codec-engine error values of util.go. -/
inductive CodecErr where
  | payloadTypeNotFound
  | codecNotFound
deriving DecidableEq

/-- GetCodecForPayloadType from util.go. -/
def GetCodecForPayloadType (s : SessionDescription) (payloadType : Nat) :
    Except CodecErr Codec :=
  let codecs := buildCodecMap s
  match mapGet codecs payloadType with
  | some codec => Except.ok codec
  | none => Except.error CodecErr.payloadTypeNotFound

/-- GetCodecsForPayloadTypes from util.go; the Go function always returns a
nil error, modelled as the constant none second component. -/
def GetCodecsForPayloadTypes (s : SessionDescription) (payloadTypes : List Nat) :
    List Codec × Option CodecErr :=
  let codecs := buildCodecMap s
  (payloadTypes.filterMap (fun pt => mapGet codecs pt), none)

/-- GetPayloadTypeForCodec from util.go; Go iterates the map in unspecified
order, determinized here to insertion order. -/
def GetPayloadTypeForCodec (s : SessionDescription) (wanted : Codec) :
    Except CodecErr Nat :=
  let codecs := buildCodecMap s
  match codecs.find? (fun p => codecsMatch wanted p.2) with
  | some p => Except.ok p.1
  | none => Except.error CodecErr.codecNotFound

/-- newSessionID from util.go: the RNG outcome (value, error) stands for the
randutil.CryptoUint64 call; the top bit is cleared by AND with the uint64
complement of 1 shifted left 63. -/
def newSessionID (rng : Nat × Option String) : Nat × Option String :=
  (rng.1 &&& ((1 <<< 63) ^^^ (2 ^ 64 - 1)), rng.2)

/-! ## State-threading variants for the frame-effect claim.
Each Go query takes the SessionDescription by pointer; its body only reads
s.MediaDescriptions, so the threaded state comes back exactly as received. -/

/-- GetCodecForPayloadType with the receiver threaded through. -/
def GetCodecForPayloadTypeSt (s : SessionDescription) (payloadType : Nat) :
    Except CodecErr Codec × SessionDescription :=
  let codecs := buildCodecMap s
  (match mapGet codecs payloadType with
   | some codec => Except.ok codec
   | none => Except.error CodecErr.payloadTypeNotFound, s)

/-- GetCodecsForPayloadTypes with the receiver threaded through. -/
def GetCodecsForPayloadTypesSt (s : SessionDescription) (payloadTypes : List Nat) :
    (List Codec × Option CodecErr) × SessionDescription :=
  let codecs := buildCodecMap s
  ((payloadTypes.filterMap (fun pt => mapGet codecs pt), none), s)

/-- GetPayloadTypeForCodec with the receiver threaded through. -/
def GetPayloadTypeForCodecSt (s : SessionDescription) (wanted : Codec) :
    Except CodecErr Nat × SessionDescription :=
  let codecs := buildCodecMap s
  (match codecs.find? (fun p => codecsMatch wanted p.2) with
   | some p => Except.ok p.1
   | none => Except.error CodecErr.codecNotFound, s)

/-! ## Invariants of the codec map -/

/-- Key consistency: every stored Codec records the payload type it is filed
under. buildCodecMap establishes this and every scan step preserves it. -/
def KeyedInv (m : CodecMap) : Prop :=
  ∀ p ∈ m, (p.2).payloadType = p.1

/-- The static-seed facts: payload types 0 and 8 carry PCMU/8000 and
PCMA/8000 throughout the scan. -/
def StaticInv (m : CodecMap) : Prop :=
  KeyedInv m ∧
  (∃ c, mapGet m 0 = some c ∧ c.payloadType = 0 ∧ c.name = "PCMU" ∧ c.clockRate = 8000) ∧
  (∃ c, mapGet m 8 = some c ∧ c.payloadType = 8 ∧ c.name = "PCMA" ∧ c.clockRate = 8000)

/-- An attribute string that the scan recognizes by prefix but cannot decode. -/
def attrUndecodable (attr : String) : Bool :=
  if goStartsWith attr "rtpmap:" then (parseRtpmap attr).isNone
  else if goStartsWith attr "fmtp:" then (parseFmtp attr).isNone
  else if goStartsWith attr "rtcp-fb:" then (parseRtcpFb attr).isNone
  else false

/-- The same session with every undecodable matching attribute removed. -/
def pruneUndecodable (s : SessionDescription) : SessionDescription :=
  { s with
    mediaDescriptions := s.mediaDescriptions.map
      (fun m => { m with attributes := m.attributes.filter (fun a => !attrUndecodable (attrString a)) }) }

/-! ## Concrete sessions used to exercise the claims -/

/-- A session holding the given attributes on a single media description. -/
def mediaSession (attrs : List Attribute) : SessionDescription :=
  { sessionName := "SDP Seminar", attributes := [],
    mediaDescriptions := [{ mediaName := "video 51372 RTP/AVP 97", attributes := attrs }] }

/-- A session with no media descriptions at all. -/
def emptySession : SessionDescription :=
  { sessionName := "SDP Seminar", attributes := [], mediaDescriptions := [] }

/-- Stored fmtp with interior whitespace, as in the fmtp-equivalence claim. -/
def sdpFmtpSpace : SessionDescription :=
  mediaSession [⟨"rtpmap", "97 VP8/90000"⟩, ⟨"fmtp", "97 a=2; b=1"⟩]

/-- Same as sdpFmtpSpace but with a whitespace-free stored fmtp. -/
def sdpFmtpPlain : SessionDescription :=
  mediaSession [⟨"rtpmap", "97 VP8/90000"⟩, ⟨"fmtp", "97 a=2;b=1"⟩]

/-- The wanted codec of the fmtp-equivalence claim: only Fmtp is set. -/
def wantedFmtp : Codec :=
  { zeroCodec with fmtp := "b=1;a=2" }

/-- The same rtcp-fb line repeated twice for one payload type. -/
def sdpDupFb : SessionDescription :=
  mediaSession [⟨"rtcp-fb", "97 nack"⟩, ⟨"rtcp-fb", "97 nack"⟩]

/-- A codec from rtpmap plus a wildcard feedback line. -/
def sdpWildcard : SessionDescription :=
  mediaSession [⟨"rtpmap", "97 VP8/90000"⟩, ⟨"rtcp-fb", "* nack"⟩]

/-- Direct feedback and identical wildcard feedback for the same codec. -/
def sdpWildcardDup : SessionDescription :=
  mediaSession [⟨"rtpmap", "97 VP8/90000"⟩, ⟨"rtcp-fb", "97 nack"⟩, ⟨"rtcp-fb", "* nack"⟩]

/-- rtpmap and fmtp fragments for the same payload type. -/
def sdpMerge : SessionDescription :=
  mediaSession [⟨"rtpmap", "99 h263-1998/90000"⟩, ⟨"fmtp", "99 custom=1"⟩]

/-! ## Helper lemmas: association-list map -/

lemma mapGet_mem {m : CodecMap} {k : Nat} {c : Codec} (h : mapGet m k = some c) :
    (k, c) ∈ m := by
  induction m with
  | nil => simp [mapGet] at h
  | cons q rest ih =>
    obtain ⟨k1, v1⟩ := q
    unfold mapGet at h
    by_cases hq : k1 = k
    · rw [if_pos hq] at h
      have hv := Option.some.inj h
      subst hq
      subst hv
      exact List.mem_cons_self _ _
    · rw [if_neg hq] at h
      exact List.mem_cons_of_mem _ (ih h)

lemma mapGet_mapSet_self (m : CodecMap) (k : Nat) (v : Codec) :
    mapGet (mapSet m k v) k = some v := by
  induction m with
  | nil => simp [mapSet, mapGet]
  | cons q rest ih =>
    obtain ⟨k1, v1⟩ := q
    by_cases hq : k1 = k
    · simp [mapSet, mapGet, hq]
    · simp [mapSet, mapGet, hq, ih]

lemma mapGet_mapSet_of_ne (m : CodecMap) {j k : Nat} (v : Codec) (h : j ≠ k) :
    mapGet (mapSet m j v) k = mapGet m k := by
  induction m with
  | nil => simp [mapSet, mapGet, h]
  | cons q rest ih =>
    obtain ⟨k1, v1⟩ := q
    by_cases hq : k1 = j
    · simp [mapSet, mapGet, hq, h]
    · by_cases hk : k1 = k
      · simp [mapSet, mapGet, hq, hk, Ne.symm h]
      · simp [mapSet, mapGet, hq, hk, ih]

lemma keyedInv_tail {q : Nat × Codec} {rest : CodecMap} (hm : KeyedInv (q :: rest)) :
    KeyedInv rest :=
  fun p hp => hm p (List.mem_cons_of_mem q hp)

lemma keyedInv_mapSet {k : Nat} {v : Codec} (hv : v.payloadType = k) :
    ∀ (m : CodecMap), KeyedInv m → KeyedInv (mapSet m k v) := by
  intro m
  induction m with
  | nil =>
    intro _ p hp
    simp only [mapSet, List.mem_singleton] at hp
    subst hp
    exact hv
  | cons q rest ih =>
    intro hm p hp
    unfold mapSet at hp
    by_cases hq : q.1 = k
    · rw [if_pos hq] at hp
      rcases List.mem_cons.mp hp with h | h
      · subst h; exact hv
      · exact hm p (List.mem_cons_of_mem q h)
    · rw [if_neg hq] at hp
      rcases List.mem_cons.mp hp with h | h
      · subst h; exact hm p (List.mem_cons_self p rest)
      · exact ih (keyedInv_tail hm) p h

lemma saved_payloadType_cases {m : CodecMap} (hm : KeyedInv m) (pt : Nat) :
    ((mapGet m pt).getD zeroCodec).payloadType = 0 ∨
    ((mapGet m pt).getD zeroCodec).payloadType = pt := by
  cases h : mapGet m pt with
  | none => exact Or.inl rfl
  | some c => exact Or.inr (by simpa using hm (pt, c) (mapGet_mem h))

/-- What mergeCodecs stores, provided the accumulator entry for the payload
type (if any) is keyed consistently: the entry ends up under
codec.payloadType, scalars are first-non-empty-wins, feedback is a plain
concatenation. -/
lemma mergeCodecs_spec (codec : Codec) (m : CodecMap)
    (h : ((mapGet m codec.payloadType).getD zeroCodec).payloadType = 0 ∨
         ((mapGet m codec.payloadType).getD zeroCodec).payloadType = codec.payloadType) :
    mergeCodecs codec m = mapSet m codec.payloadType
      { payloadType := codec.payloadType,
        name := if ((mapGet m codec.payloadType).getD zeroCodec).name = "" then codec.name
                else ((mapGet m codec.payloadType).getD zeroCodec).name,
        clockRate := if ((mapGet m codec.payloadType).getD zeroCodec).clockRate = 0 then codec.clockRate
                     else ((mapGet m codec.payloadType).getD zeroCodec).clockRate,
        encodingParameters := if ((mapGet m codec.payloadType).getD zeroCodec).encodingParameters = "" then codec.encodingParameters
                              else ((mapGet m codec.payloadType).getD zeroCodec).encodingParameters,
        fmtp := if ((mapGet m codec.payloadType).getD zeroCodec).fmtp = "" then codec.fmtp
                else ((mapGet m codec.payloadType).getD zeroCodec).fmtp,
        rtcpFeedback := ((mapGet m codec.payloadType).getD zeroCodec).rtcpFeedback ++ codec.rtcpFeedback } := by
  unfold mergeCodecs
  set s0 := (mapGet m codec.payloadType).getD zeroCodec with hs0
  clear_value s0
  obtain ⟨p, n, r, e, f, fb⟩ := s0
  simp only at h ⊢
  rcases h with h | h
  · subst h
    by_cases hn : n = "" <;> by_cases hr : r = 0 <;> by_cases he : e = "" <;>
      by_cases hf : f = "" <;> simp [hn, hr, he, hf]
  · subst h
    by_cases hp : codec.payloadType = 0 <;> by_cases hn : n = "" <;>
      by_cases hr : r = 0 <;> by_cases he : e = "" <;> by_cases hf : f = "" <;>
      simp [hp, hn, hr, he, hf]

lemma keyedInv_merge {m : CodecMap} (hm : KeyedInv m) (codec : Codec) :
    KeyedInv (mergeCodecs codec m) := by
  rw [mergeCodecs_spec codec m (saved_payloadType_cases hm codec.payloadType)]
  apply keyedInv_mapSet _ m hm
  rfl

/-! ## Helper lemmas: appendRTCPFeedback -/

lemma appendRTCPFeedback_scalar (c : Codec) (fb : String) :
    (appendRTCPFeedback c fb).payloadType = c.payloadType ∧
    (appendRTCPFeedback c fb).name = c.name ∧
    (appendRTCPFeedback c fb).clockRate = c.clockRate ∧
    (appendRTCPFeedback c fb).encodingParameters = c.encodingParameters ∧
    (appendRTCPFeedback c fb).fmtp = c.fmtp := by
  unfold appendRTCPFeedback
  split <;> simp

lemma foldl_appendRTCPFeedback_scalar (ws : List String) (c : Codec) :
    (ws.foldl appendRTCPFeedback c).payloadType = c.payloadType ∧
    (ws.foldl appendRTCPFeedback c).name = c.name ∧
    (ws.foldl appendRTCPFeedback c).clockRate = c.clockRate ∧
    (ws.foldl appendRTCPFeedback c).encodingParameters = c.encodingParameters ∧
    (ws.foldl appendRTCPFeedback c).fmtp = c.fmtp := by
  induction ws generalizing c with
  | nil => simp
  | cons w ws ih =>
    have h1 := appendRTCPFeedback_scalar c w
    have h2 := ih (appendRTCPFeedback c w)
    simp only [List.foldl_cons]
    exact ⟨h2.1.trans h1.1, h2.2.1.trans h1.2.1, h2.2.2.1.trans h1.2.2.1,
           h2.2.2.2.1.trans h1.2.2.2.1, h2.2.2.2.2.trans h1.2.2.2.2⟩

lemma mem_appendRTCPFeedback_self (c : Codec) (fb : String) :
    fb ∈ (appendRTCPFeedback c fb).rtcpFeedback := by
  unfold appendRTCPFeedback
  split
  · assumption
  · simp

lemma mem_appendRTCPFeedback_of_mem {c : Codec} {x : String} (fb : String)
    (h : x ∈ c.rtcpFeedback) : x ∈ (appendRTCPFeedback c fb).rtcpFeedback := by
  unfold appendRTCPFeedback
  split
  · exact h
  · simp [h]

lemma mem_foldl_appendRTCPFeedback_of_mem (ws : List String) {c : Codec} {x : String}
    (h : x ∈ c.rtcpFeedback) : x ∈ (ws.foldl appendRTCPFeedback c).rtcpFeedback := by
  induction ws generalizing c with
  | nil => exact h
  | cons w ws ih => exact ih (mem_appendRTCPFeedback_of_mem w h)

lemma mem_foldl_appendRTCPFeedback {ws : List String} (c : Codec) {fb : String}
    (h : fb ∈ ws) : fb ∈ (ws.foldl appendRTCPFeedback c).rtcpFeedback := by
  induction ws generalizing c with
  | nil => cases h
  | cons w ws ih =>
    rcases List.mem_cons.mp h with h | h
    · subst h
      exact mem_foldl_appendRTCPFeedback_of_mem ws (mem_appendRTCPFeedback_self c fb)
    · exact ih _ h

lemma nodup_appendRTCPFeedback {c : Codec} (fb : String)
    (h : c.rtcpFeedback.Nodup) : (appendRTCPFeedback c fb).rtcpFeedback.Nodup := by
  unfold appendRTCPFeedback
  split
  · exact h
  · next hmem => simpa [List.nodup_append] using ⟨h, hmem⟩

lemma nodup_foldl_appendRTCPFeedback (ws : List String) {c : Codec}
    (h : c.rtcpFeedback.Nodup) : (ws.foldl appendRTCPFeedback c).rtcpFeedback.Nodup := by
  induction ws generalizing c with
  | nil => exact h
  | cons w ws ih => exact ih (nodup_appendRTCPFeedback w h)

/-! ## Helper lemmas: applyWildcards and the scan -/

lemma mapGet_applyWildcards (m : CodecMap) (ws : List String) (k : Nat) :
    mapGet (applyWildcards m ws) k =
      (mapGet m k).map (fun c => ws.foldl appendRTCPFeedback c) := by
  induction m with
  | nil => simp [applyWildcards, mapGet]
  | cons q rest ih =>
    obtain ⟨k1, v1⟩ := q
    by_cases hq : k1 = k
    · simp [applyWildcards, mapGet, hq]
    · simpa [applyWildcards, mapGet, hq] using ih

lemma keyedInv_applyWildcards {m : CodecMap} (hm : KeyedInv m) (ws : List String) :
    KeyedInv (applyWildcards m ws) := by
  intro p hp
  obtain ⟨q, hq, hpq⟩ := List.mem_map.mp hp
  subst hpq
  simpa [(foldl_appendRTCPFeedback_scalar ws q.2).1] using hm q hq

lemma staticInv_applyWildcards {m : CodecMap} (hm : StaticInv m) (ws : List String) :
    StaticInv (applyWildcards m ws) := by
  obtain ⟨hkey, ⟨c0, hg0, hp0, hn0, hr0⟩, ⟨c8, hg8, hp8, hn8, hr8⟩⟩ := hm
  refine ⟨keyedInv_applyWildcards hkey ws, ?_, ?_⟩
  · refine ⟨ws.foldl appendRTCPFeedback c0, ?_, ?_, ?_, ?_⟩
    · rw [mapGet_applyWildcards, hg0, Option.map_some']
    · rw [(foldl_appendRTCPFeedback_scalar ws c0).1, hp0]
    · rw [(foldl_appendRTCPFeedback_scalar ws c0).2.1, hn0]
    · rw [(foldl_appendRTCPFeedback_scalar ws c0).2.2.1, hr0]
  · refine ⟨ws.foldl appendRTCPFeedback c8, ?_, ?_, ?_, ?_⟩
    · rw [mapGet_applyWildcards, hg8, Option.map_some']
    · rw [(foldl_appendRTCPFeedback_scalar ws c8).1, hp8]
    · rw [(foldl_appendRTCPFeedback_scalar ws c8).2.1, hn8]
    · rw [(foldl_appendRTCPFeedback_scalar ws c8).2.2.1, hr8]

lemma staticInv_merge {m : CodecMap} (hm : StaticInv m) (codec : Codec) :
    StaticInv (mergeCodecs codec m) := by
  obtain ⟨hkey, ⟨c0, hg0, hp0, hn0, hr0⟩, ⟨c8, hg8, hp8, hn8, hr8⟩⟩ := hm
  rw [mergeCodecs_spec codec m (saved_payloadType_cases hkey codec.payloadType)]
  refine ⟨?_, ?_, ?_⟩
  · apply keyedInv_mapSet _ m hkey
    rfl
  · by_cases hpt : codec.payloadType = 0
    · rw [hpt, hg0]
      exact ⟨_, mapGet_mapSet_self m 0 _, rfl, by simp [hn0], by simp [hr0]⟩
    · rw [mapGet_mapSet_of_ne m _ hpt]
      exact ⟨c0, hg0, hp0, hn0, hr0⟩
  · by_cases hpt : codec.payloadType = 8
    · rw [hpt, hg8]
      exact ⟨_, mapGet_mapSet_self m 8 _, rfl, by simp [hn8], by simp [hr8]⟩
    · rw [mapGet_mapSet_of_ne m _ hpt]
      exact ⟨c8, hg8, hp8, hn8, hr8⟩

lemma staticInv_scanAttr {st : CodecMap × List String} (h : StaticInv st.1) (a : String) :
    StaticInv (scanAttr st a).1 := by
  unfold scanAttr
  by_cases h1 : goStartsWith a "rtpmap:"
  · rw [if_pos h1]
    cases hp : parseRtpmap a with
    | none => exact h
    | some c => exact staticInv_merge h c
  · rw [if_neg h1]
    by_cases h2 : goStartsWith a "fmtp:"
    · rw [if_pos h2]
      cases hp : parseFmtp a with
      | none => exact h
      | some c => exact staticInv_merge h c
    · rw [if_neg h2]
      by_cases h3 : goStartsWith a "rtcp-fb:"
      · rw [if_pos h3]
        cases hp : parseRtcpFb a with
        | none => exact h
        | some cw =>
          obtain ⟨c, b⟩ := cw
          cases b
          · exact staticInv_merge h c
          · exact h
      · rw [if_neg h3]
        exact h

lemma staticInv_scan (l : List String) :
    ∀ (st : CodecMap × List String), StaticInv st.1 → StaticInv ((l.foldl scanAttr st).1) := by
  induction l with
  | nil => exact fun st h => h
  | cons a t ih =>
    intro st h
    exact ih (scanAttr st a) (staticInv_scanAttr h a)

lemma staticInv_seed : StaticInv seedCodecs := by
  refine ⟨?_, ⟨_, rfl, rfl, rfl, rfl⟩, ⟨_, rfl, rfl, rfl, rfl⟩⟩
  intro p hp
  simp only [seedCodecs, List.mem_cons, List.not_mem_nil, or_false] at hp
  rcases hp with h | h <;> subst h <;> rfl

lemma staticInv_buildCodecMap (s : SessionDescription) :
    StaticInv (buildCodecMap s) :=
  staticInv_applyWildcards (staticInv_scan (attrStrings s) (seedCodecs, []) staticInv_seed) _

/-! ## Helper lemmas: undecodable attributes are no-ops of the scan -/

lemma scanAttr_undecodable {a : String} (h : attrUndecodable a = true)
    (st : CodecMap × List String) : scanAttr st a = st := by
  unfold attrUndecodable at h
  unfold scanAttr
  by_cases h1 : goStartsWith a "rtpmap:"
  · rw [if_pos h1] at h ⊢
    cases hp : parseRtpmap a with
    | none => rfl
    | some c => rw [hp] at h; simp at h
  · rw [if_neg h1] at h ⊢
    by_cases h2 : goStartsWith a "fmtp:"
    · rw [if_pos h2] at h ⊢
      cases hp : parseFmtp a with
      | none => rfl
      | some c => rw [hp] at h; simp at h
    · rw [if_neg h2] at h ⊢
      by_cases h3 : goStartsWith a "rtcp-fb:"
      · rw [if_pos h3] at h ⊢
        cases hp : parseRtcpFb a with
        | none => rfl
        | some cw => rw [hp] at h; simp at h
      · rw [if_neg h3] at h
        simp at h

lemma foldl_scanAttr_filter (l : List String) :
    ∀ st, (l.filter (fun a => !attrUndecodable a)).foldl scanAttr st = l.foldl scanAttr st := by
  induction l with
  | nil => intro _; rfl
  | cons a t ih =>
    intro st
    by_cases h : attrUndecodable a = true
    · simp only [List.filter_cons, h, Bool.not_true, List.foldl_cons,
        scanAttr_undecodable h st]
      exact ih st
    · rw [Bool.not_eq_true] at h
      simp only [List.filter_cons, h, Bool.not_false, List.foldl_cons]
      exact ih (scanAttr st a)

lemma map_filter_comp {α β : Type} (f : α → β) (p : β → Bool) (l : List α) :
    (l.filter (fun a => p (f a))).map f = (l.map f).filter p := by
  induction l with
  | nil => rfl
  | cons a t ih => by_cases h : p (f a) <;> simp [List.filter_cons, h, ih]

lemma attrStrings_prune_list (L : List MediaDescription) :
    ((L.map (fun m =>
        { m with attributes := m.attributes.filter (fun a => !attrUndecodable (attrString a)) })).map
      (fun m => m.attributes.map attrString)).flatten =
    ((L.map (fun m => m.attributes.map attrString)).flatten).filter
      (fun a => !attrUndecodable a) := by
  induction L with
  | nil => rfl
  | cons m t ih =>
    simp only [List.map_cons, List.flatten_cons, List.filter_append, ih]
    congr 1
    exact map_filter_comp attrString (fun a => !attrUndecodable a) m.attributes

lemma attrStrings_prune (s : SessionDescription) :
    attrStrings (pruneUndecodable s) = (attrStrings s).filter (fun a => !attrUndecodable a) := by
  unfold attrStrings pruneUndecodable
  exact attrStrings_prune_list s.mediaDescriptions

lemma buildCodecMap_prune (s : SessionDescription) :
    buildCodecMap (pruneUndecodable s) = buildCodecMap s := by
  unfold buildCodecMap scanState
  rw [attrStrings_prune, foldl_scanAttr_filter]

/-! ## Helper lemmas: find? -/

lemma find?_isSome_of_mem {α : Type} {l : List α} {p : α → Bool} {x : α}
    (hx : x ∈ l) (hp : p x = true) : (l.find? p).isSome = true := by
  induction l with
  | nil => cases hx
  | cons a t ih =>
    by_cases hpa : p a = true
    · simp [List.find?_cons_of_pos _ hpa]
    · rcases List.mem_cons.mp hx with h | h
      · subst h; exact absurd hp hpa
      · rw [List.find?_cons_of_neg _ (by simpa using hpa)]
        exact ih h

/-! ## Helper lemmas: splitOnChar -/

lemma splitOnChar_of_not_mem {sep : Char} {l : List Char} (h : sep ∉ l) :
    splitOnChar sep l = [l] := by
  induction l with
  | nil => rfl
  | cons c rest ih =>
    have hc : ¬ c = sep := by intro hce; exact h (by simp [hce])
    have hr : sep ∉ rest := fun hm => h (List.mem_cons_of_mem c hm)
    unfold splitOnChar
    rw [if_neg hc, ih hr]

lemma splitOnChar_append {sep : Char} {a b : List Char} (h : sep ∉ a) :
    splitOnChar sep (a ++ sep :: b) = a :: splitOnChar sep b := by
  induction a with
  | nil => simp [splitOnChar]
  | cons c rest ih =>
    have hc : ¬ c = sep := by intro hce; exact h (by simp [hce])
    have hr : sep ∉ rest := fun hm => h (List.mem_cons_of_mem c hm)
    have ihr := ih hr
    simp only [List.cons_append]
    conv_lhs => rw [splitOnChar]
    rw [if_neg hc, ihr]

/-! ## The claims -/

/-- C8: newSessionID always clears the most significant of the 64 bits — the
result is below 2 ^ 63 whatever value the cryptographic RNG produced — and it
returns exactly the error the RNG reported. -/
theorem C8_session_id_top_bit (id : Nat) (err : Option String) :
    (newSessionID (id, err)).1 < 2 ^ 63 ∧ (newSessionID (id, err)).2 = err := by
  constructor
  · show id &&& ((1 <<< 63) ^^^ (2 ^ 64 - 1)) < 2 ^ 63
    have hmask : ((1 <<< 63) ^^^ (2 ^ 64 - 1) : Nat) = 2 ^ 63 - 1 := by decide
    rw [hmask]
    exact lt_of_le_of_lt Nat.and_le_right (by decide)
  · rfl

/-- C9: the three codec queries never mutate the SessionDescription: each
state-threaded variant hands the session back unchanged and returns exactly
the value of the pure query, which is recomputed from buildCodecMap on every
call. -/
theorem C9_queries_do_not_mutate (s : SessionDescription) (pt : Nat)
    (pts : List Nat) (wanted : Codec) :
    (GetCodecForPayloadTypeSt s pt).2 = s ∧
    (GetCodecForPayloadTypeSt s pt).1 = GetCodecForPayloadType s pt ∧
    (GetCodecsForPayloadTypesSt s pts).2 = s ∧
    (GetCodecsForPayloadTypesSt s pts).1 = GetCodecsForPayloadTypes s pts ∧
    (GetPayloadTypeForCodecSt s wanted).2 = s ∧
    (GetPayloadTypeForCodecSt s wanted).1 = GetPayloadTypeForCodec s wanted :=
  ⟨rfl, rfl, rfl, rfl, rfl, rfl⟩

/-- C10: an rtpmap attribute whose codec description has no slash decodes
successfully to a Codec with the whole description as the name, clock rate 0
and empty encoding parameters; in particular "rtpmap:96 opus". -/
theorem C10_rtpmap_without_clockrate :
    (∀ desc : List Char, ' ' ∉ desc → '/' ∉ desc →
        parseRtpmap ("rtpmap:96 " ++ String.mk desc) =
          some { zeroCodec with payloadType := 96, name := String.mk desc }) ∧
    parseRtpmap "rtpmap:96 opus" =
      some { zeroCodec with payloadType := 96, name := "opus" } := by
  constructor
  · intro desc hsp hsl
    have hdata : ("rtpmap:96 " ++ String.mk desc).data = "rtpmap:96".data ++ ' ' :: desc := rfl
    have h1 : goSplit ("rtpmap:96 " ++ String.mk desc) ' ' = ["rtpmap:96", String.mk desc] := by
      unfold goSplit
      rw [hdata, splitOnChar_append (by decide), splitOnChar_of_not_mem hsp]
      rfl
    have h2 : goSplit (String.mk desc) '/' = [String.mk desc] := by
      unfold goSplit
      show (splitOnChar '/' desc).map String.mk = _
      rw [splitOnChar_of_not_mem hsl]
      rfl
    unfold parseRtpmap
    rw [h1]
    simp only [List.getD_cons_succ, List.getD_cons_zero, List.length_cons, List.length_nil]
    rw [if_neg (by norm_num)]
    have h3 : goSplit "rtpmap:96" ':' = ["rtpmap", "96"] := rfl
    rw [h3]
    simp only [List.getD_cons_succ, List.getD_cons_zero, List.length_cons, List.length_nil]
    rw [if_neg (by norm_num)]
    have h4 : goParseUint 8 "96" = some 96 := rfl
    rw [h4, h2]
    simp only [List.getD_cons_zero, List.length_cons, List.length_nil]
    rw [if_neg (by norm_num)]
    rfl
  · rfl

/-- C10 witness: the general statement applied to the description "opus". -/
theorem C10_witness :
    parseRtpmap ("rtpmap:96 " ++ String.mk "opus".data) =
      some { zeroCodec with payloadType := 96, name := String.mk "opus".data } :=
  C10_rtpmap_without_clockrate.1 "opus".data (by decide) (by decide)

/-- C5: for every SessionDescription the merged codec map carries the static
seeds — payload type 0 resolves to PCMU at 8000 and payload type 8 to PCMA at
8000 — and on a session with no media descriptions the query returns exactly
those static definitions. -/
theorem C5_static_seeds (s : SessionDescription) :
    (∃ c, GetCodecForPayloadType s 0 = Except.ok c ∧
        c.payloadType = 0 ∧ c.name = "PCMU" ∧ c.clockRate = 8000) ∧
    (∃ c, GetCodecForPayloadType s 8 = Except.ok c ∧
        c.payloadType = 8 ∧ c.name = "PCMA" ∧ c.clockRate = 8000) ∧
    GetCodecForPayloadType emptySession 0 =
      Except.ok { zeroCodec with payloadType := 0, name := "PCMU", clockRate := 8000 } ∧
    GetCodecForPayloadType emptySession 8 =
      Except.ok { zeroCodec with payloadType := 8, name := "PCMA", clockRate := 8000 } := by
  obtain ⟨hkey, ⟨c0, hg0, hp0, hn0, hr0⟩, ⟨c8, hg8, hp8, hn8, hr8⟩⟩ := staticInv_buildCodecMap s
  refine ⟨⟨c0, ?_, hp0, hn0, hr0⟩, ⟨c8, ?_, hp8, hn8, hr8⟩, rfl, rfl⟩
  · simp only [GetCodecForPayloadType, hg0]
  · simp only [GetCodecForPayloadType, hg8]

/-- C2 counterexample: with the same rtcp-fb line given twice for payload type
97, the returned Codec carries two identical feedback strings, so the claimed
invariant fails. -/
theorem C2_counterexample :
    GetCodecForPayloadType sdpDupFb 97 =
      Except.ok { zeroCodec with payloadType := 97, rtcpFeedback := ["nack", "nack"] } ∧
    ¬ ({ zeroCodec with payloadType := 97, rtcpFeedback := ["nack", "nack"] } : Codec).rtcpFeedback.Nodup :=
  ⟨rfl, by decide⟩

/-- C2 amended: mergeCodecs appends the fragment's feedback strings to the
accumulator's list unconditionally — duplicates included — so a repeated
rtcp-fb line yields a duplicated feedback entry (see the counterexample);
exact-match dedup happens only in appendRTCPFeedback, which the engine applies
solely when distributing wildcard feedback after the scan. -/
theorem C2_merge_appends_without_dedup :
    (∀ (codec : Codec) (m : CodecMap), KeyedInv m →
        ∃ c, mapGet (mergeCodecs codec m) codec.payloadType = some c ∧
          c.rtcpFeedback =
            ((mapGet m codec.payloadType).getD zeroCodec).rtcpFeedback ++ codec.rtcpFeedback) ∧
    (∀ (c : Codec) (fb : String), fb ∈ c.rtcpFeedback → appendRTCPFeedback c fb = c) ∧
    (∀ (c : Codec) (fb : String), fb ∉ c.rtcpFeedback →
        appendRTCPFeedback c fb = { c with rtcpFeedback := c.rtcpFeedback ++ [fb] }) := by
  refine ⟨?_, ?_, ?_⟩
  · intro codec m hm
    rw [mergeCodecs_spec codec m (saved_payloadType_cases hm codec.payloadType)]
    exact ⟨_, mapGet_mapSet_self m codec.payloadType _, rfl⟩
  · intro c fb h
    unfold appendRTCPFeedback
    rw [if_pos h]
  · intro c fb h
    unfold appendRTCPFeedback
    rw [if_neg h]

/-- C2 witness: the merge-concatenation statement at a concrete fragment and
the empty accumulator. -/
theorem C2_witness :
    ∃ c, mapGet (mergeCodecs { zeroCodec with payloadType := 97, rtcpFeedback := ["nack"] } []) 97 =
        some c ∧
      c.rtcpFeedback =
        ((mapGet ([] : CodecMap) 97).getD zeroCodec).rtcpFeedback ++ ["nack"] :=
  C2_merge_appends_without_dedup.1 { zeroCodec with payloadType := 97, rtcpFeedback := ["nack"] }
    [] (by intro p hp; cases hp)

/-- C4: merging a decoded fragment overwrites each scalar field of the
accumulated codec only when the accumulator's value is still the zero/empty
value, and the rtpmap plus fmtp fragments for payload type 99 merge into one
codec carrying name, clock rate and fmtp. -/
theorem C4_merge_first_nonempty_wins :
    (∀ (codec : Codec) (m : CodecMap), KeyedInv m →
        ∃ c, mapGet (mergeCodecs codec m) codec.payloadType = some c ∧
          c.name = (if ((mapGet m codec.payloadType).getD zeroCodec).name = ""
                    then codec.name else ((mapGet m codec.payloadType).getD zeroCodec).name) ∧
          c.clockRate = (if ((mapGet m codec.payloadType).getD zeroCodec).clockRate = 0
                         then codec.clockRate else ((mapGet m codec.payloadType).getD zeroCodec).clockRate) ∧
          c.encodingParameters = (if ((mapGet m codec.payloadType).getD zeroCodec).encodingParameters = ""
                                  then codec.encodingParameters
                                  else ((mapGet m codec.payloadType).getD zeroCodec).encodingParameters) ∧
          c.fmtp = (if ((mapGet m codec.payloadType).getD zeroCodec).fmtp = ""
                    then codec.fmtp else ((mapGet m codec.payloadType).getD zeroCodec).fmtp)) ∧
    GetCodecForPayloadType sdpMerge 99 =
      Except.ok { zeroCodec with
        payloadType := 99, name := "h263-1998", clockRate := 90000, fmtp := "custom=1" } := by
  constructor
  · intro codec m hm
    rw [mergeCodecs_spec codec m (saved_payloadType_cases hm codec.payloadType)]
    exact ⟨_, mapGet_mapSet_self m codec.payloadType _, rfl, rfl, rfl, rfl⟩
  · rfl

/-- C4 witness: the merge statement at a concrete fragment and the empty
accumulator. -/
theorem C4_witness :
    ∃ c, mapGet (mergeCodecs { zeroCodec with payloadType := 99, fmtp := "custom=1" } []) 99 =
        some c ∧
      c.name = (if ((mapGet ([] : CodecMap) 99).getD zeroCodec).name = ""
                then ({ zeroCodec with payloadType := 99, fmtp := "custom=1" } : Codec).name
                else ((mapGet ([] : CodecMap) 99).getD zeroCodec).name) ∧
      c.clockRate = (if ((mapGet ([] : CodecMap) 99).getD zeroCodec).clockRate = 0
                     then ({ zeroCodec with payloadType := 99, fmtp := "custom=1" } : Codec).clockRate
                     else ((mapGet ([] : CodecMap) 99).getD zeroCodec).clockRate) ∧
      c.encodingParameters = (if ((mapGet ([] : CodecMap) 99).getD zeroCodec).encodingParameters = ""
                              then ({ zeroCodec with payloadType := 99, fmtp := "custom=1" } : Codec).encodingParameters
                              else ((mapGet ([] : CodecMap) 99).getD zeroCodec).encodingParameters) ∧
      c.fmtp = (if ((mapGet ([] : CodecMap) 99).getD zeroCodec).fmtp = ""
                then ({ zeroCodec with payloadType := 99, fmtp := "custom=1" } : Codec).fmtp
                else ((mapGet ([] : CodecMap) 99).getD zeroCodec).fmtp) :=
  C4_merge_first_nonempty_wins.1 { zeroCodec with payloadType := 99, fmtp := "custom=1" }
    [] (by intro p hp; cases hp)

/-- C1 counterexample: the merged map of sdpFmtpSpace stores a codec whose
fmtp is "a=2; b=1", yet the query for a wanted fmtp "b=1;a=2" errors with
codecNotFound — no entry of the map matches — because equivalentFmtp sorts
the semicolon-split parts before trimming them, and " b=1" sorts before
"a=2". -/
theorem C1_counterexample :
    mapGet (buildCodecMap sdpFmtpSpace) 97 =
      some { zeroCodec with
        payloadType := 97, name := "VP8", clockRate := 90000, fmtp := "a=2; b=1" } ∧
    GetPayloadTypeForCodec sdpFmtpSpace wantedFmtp = Except.error CodecErr.codecNotFound ∧
    ((buildCodecMap sdpFmtpSpace).all (fun p => !codecsMatch wantedFmtp p.2)) = true ∧
    equivalentFmtp "b=1;a=2" "a=2; b=1" = false :=
  ⟨rfl, rfl, by decide, by decide⟩

/-- C1 amended: differing part counts still never match (wanted "b=1;a=2"
never matches "a=2;b=1;c=3"), and the order-insensitive match does hold for
whitespace-free stored fmtp strings: whenever the merged map holds a codec
with fmtp "a=2;b=1", the query for wanted fmtp "b=1;a=2" succeeds. It fails
for the stored "a=2; b=1" of the original claim, because the parts are sorted
before being trimmed. -/
theorem C1_fmtp_set_equivalence :
    (∀ s : SessionDescription,
        (buildCodecMap s).any (fun p => p.2.fmtp = "a=2;b=1") = true →
        ∃ pt, GetPayloadTypeForCodec s wantedFmtp = Except.ok pt) ∧
    equivalentFmtp "b=1;a=2" "a=2;b=1" = true ∧
    equivalentFmtp "b=1;a=2" "a=2; b=1" = false ∧
    equivalentFmtp "b=1;a=2" "a=2;b=1;c=3" = false := by
  refine ⟨?_, by decide, by decide, by decide⟩
  intro s hs
  obtain ⟨p, hmem, hp⟩ := List.any_eq_true.mp hs
  have hfmtp : p.2.fmtp = "a=2;b=1" := by simpa using hp
  have he : equivalentFmtp "b=1;a=2" "a=2;b=1" = true := by decide
  have hmatch : codecsMatch wantedFmtp p.2 = true := by
    unfold codecsMatch wantedFmtp
    rw [hfmtp]
    simp [zeroCodec, he]
  have hsome := @find?_isSome_of_mem _ (buildCodecMap s)
    (fun q => codecsMatch wantedFmtp q.2) p hmem hmatch
  unfold GetPayloadTypeForCodec
  cases hfind : (buildCodecMap s).find? (fun p => codecsMatch wantedFmtp p.2) with
  | none => rw [hfind] at hsome; simp at hsome
  | some q => exact ⟨q.1, by simp only [hfind]⟩

/-- C1 witness: the amended positive statement at a session whose stored fmtp
is the whitespace-free "a=2;b=1". -/
theorem C1_witness :
    ∃ pt, GetPayloadTypeForCodec sdpFmtpPlain wantedFmtp = Except.ok pt :=
  C1_fmtp_set_equivalence.1 sdpFmtpPlain (by decide)

/-- C3: after the full scan every wildcard feedback string is appended —
through the deduplicating appendRTCPFeedback — to every codec of the merged
map; concretely, a wildcard nack reaches codec 97 introduced by rtpmap, and a
feedback string already present is not duplicated. -/
theorem C3_wildcard_feedback_propagation :
    (∀ (s : SessionDescription) (fb : String) (p : Nat × Codec),
        p ∈ buildCodecMap s → fb ∈ (scanState s).2 → fb ∈ p.2.rtcpFeedback) ∧
    (∀ (c : Codec) (ws : List String), c.rtcpFeedback.Nodup →
        ((ws.foldl appendRTCPFeedback c).rtcpFeedback).Nodup) ∧
    (∃ c, GetCodecForPayloadType sdpWildcard 97 = Except.ok c ∧ "nack" ∈ c.rtcpFeedback) ∧
    GetCodecForPayloadType sdpWildcardDup 97 =
      Except.ok { zeroCodec with
        payloadType := 97, name := "VP8", clockRate := 90000, rtcpFeedback := ["nack"] } := by
  refine ⟨?_, ?_, ?_, rfl⟩
  · intro s fb p hp hfb
    unfold buildCodecMap applyWildcards at hp
    obtain ⟨q, hq, hpq⟩ := List.mem_map.mp hp
    subst hpq
    exact mem_foldl_appendRTCPFeedback q.2 hfb
  · intro c ws h
    exact nodup_foldl_appendRTCPFeedback ws h
  · exact ⟨{ zeroCodec with
        payloadType := 97, name := "VP8", clockRate := 90000, rtcpFeedback := ["nack"] },
      rfl, by decide⟩

/-- C3 witness: the propagation statement applied to the concrete wildcard
session, its entry for payload type 97, and the feedback string nack. -/
theorem C3_witness :
    "nack" ∈ ({ zeroCodec with
      payloadType := 97, name := "VP8", clockRate := 90000,
      rtcpFeedback := ["nack"] } : Codec).rtcpFeedback :=
  C3_wildcard_feedback_propagation.1 sdpWildcard "nack"
    (97, { zeroCodec with
      payloadType := 97, name := "VP8", clockRate := 90000, rtcpFeedback := ["nack"] })
    (by decide) (by decide)

/-- C6: in codecsMatch each of name, clock rate, encoding parameters and fmtp
constrains the candidate only when the wanted value is non-zero — a wanted
codec with all four zero matches every candidate — and the name comparison is
case-insensitive, e.g. "pcmu" matches "PCMU". -/
theorem C6_matching_wildcards_and_case :
    (∀ wanted got : Codec, codecsMatch wanted got = true ↔
        ((wanted.name = "" ∨ goEqualFold wanted.name got.name = true) ∧
         (wanted.clockRate = 0 ∨ wanted.clockRate = got.clockRate) ∧
         (wanted.encodingParameters = "" ∨ wanted.encodingParameters = got.encodingParameters) ∧
         (wanted.fmtp = "" ∨ equivalentFmtp wanted.fmtp got.fmtp = true))) ∧
    (∀ (pt : Nat) (got : Codec), codecsMatch { zeroCodec with payloadType := pt } got = true) ∧
    goEqualFold "pcmu" "PCMU" = true ∧
    codecsMatch { zeroCodec with name := "pcmu" }
      { zeroCodec with payloadType := 0, name := "PCMU", clockRate := 8000 } = true := by
  refine ⟨?_, ?_, by decide, by decide⟩
  · intro wanted got
    by_cases hn : wanted.name = "" <;>
      by_cases hf : goEqualFold wanted.name got.name = true <;>
      by_cases hc : wanted.clockRate = 0 <;>
      by_cases hc2 : wanted.clockRate = got.clockRate <;>
      by_cases he : wanted.encodingParameters = "" <;>
      by_cases he2 : wanted.encodingParameters = got.encodingParameters <;>
      by_cases hm : wanted.fmtp = "" <;>
      by_cases hm2 : equivalentFmtp wanted.fmtp got.fmtp = true <;>
      simp [codecsMatch, hn, hf, hc, hc2, he, he2, hm, hm2]
  · intro pt got
    rfl

/-- C6 witness: the characterization applied to a concrete wanted/candidate
pair, discharging the right-hand side at concrete values. -/
theorem C6_witness :
    codecsMatch { zeroCodec with name := "opus" }
      { zeroCodec with name := "OPUS", clockRate := 48000 } = true :=
  (C6_matching_wildcards_and_case.1 { zeroCodec with name := "opus" }
      { zeroCodec with name := "OPUS", clockRate := 48000 }).mpr
    ⟨Or.inr (by decide), Or.inl rfl, Or.inl rfl, Or.inl rfl⟩

/-- C7: the merged codec map of any session equals the map of the same
session with every undecodable matching attribute removed — decode failures
are silently skipped — and errors arise only from final lookup misses:
GetCodecForPayloadType errors exactly when the payload type is absent,
GetCodecsForPayloadTypes never errors, and GetPayloadTypeForCodec errors
exactly when no entry matches. -/
theorem C7_undecodable_attributes_skipped (s : SessionDescription) :
    buildCodecMap (pruneUndecodable s) = buildCodecMap s ∧
    (∀ pt, GetCodecForPayloadType s pt = Except.error CodecErr.payloadTypeNotFound ↔
        mapGet (buildCodecMap s) pt = none) ∧
    (∀ pts, (GetCodecsForPayloadTypes s pts).2 = none) ∧
    (∀ wanted, GetPayloadTypeForCodec s wanted = Except.error CodecErr.codecNotFound ↔
        (buildCodecMap s).find? (fun p => codecsMatch wanted p.2) = none) := by
  refine ⟨buildCodecMap_prune s, ?_, fun _ => rfl, ?_⟩
  · intro pt
    unfold GetCodecForPayloadType
    cases h : mapGet (buildCodecMap s) pt <;> simp [h]
  · intro wanted
    unfold GetPayloadTypeForCodec
    cases h : (buildCodecMap s).find? (fun p => codecsMatch wanted p.2) <;> simp [h]

/-- C7 witness: the skip statement and the error characterization at the
empty session and a missing payload type. -/
theorem C7_witness :
    buildCodecMap (pruneUndecodable emptySession) = buildCodecMap emptySession ∧
    (GetCodecForPayloadType emptySession 1 = Except.error CodecErr.payloadTypeNotFound ↔
        mapGet (buildCodecMap emptySession) 1 = none) :=
  ⟨(C7_undecodable_attributes_skipped emptySession).1,
   (C7_undecodable_attributes_skipped emptySession).2.1 1⟩

end Sdp
